import Mathlib

set_option maxRecDepth 100000

/-!
Shallow embedding of the vintageJS image-effect pipeline (`src/index.js`).

JavaScript numbers are modelled as exact rationals (`ℚ`); binary floating-point
rounding is not modelled.  The pixel buffer (`Uint8ClampedArray`) is modelled as
a `List ℕ` of byte samples; a store into it goes through `clampRound`, the
ECMAScript ToUint8Clamp conversion (clamp to [0,255], round half to even).
-/

/-- `Curve`: three 256-entry per-channel remap tables (`{r, g, b}` in the source). -/
structure Curve where
  r : List ℚ
  g : List ℚ
  b : List ℚ

/-- `RGBAColor`: the `{r, g, b, a}` record used for the screen tint. -/
structure RGBAColor where
  r : ℚ
  g : ℚ
  b : ℚ
  a : ℚ

/-- The `Effect` record of the source.  The Flow type `false | T` is modelled as
`Option T` (`none` = `false`), matching JS truthiness tests on those fields. -/
structure Effect where
  curves : Option Curve
  screen : Option RGBAColor
  saturation : ℚ
  vignette : ℚ
  lighten : ℚ
  viewfinder : Option String
  sepia : Bool
  brightness : ℚ
  contrast : ℚ

/-- `defaultEffect` from the source. -/
def defaultEffect : Effect where
  curves := none
  screen := none
  saturation := 1
  vignette := 0
  lighten := 0
  viewfinder := none
  sepia := false
  brightness := 0
  contrast := 0

/-- The `$Shape<Effect>` argument of `applyEffect`: every field optionally present. -/
structure EffectShape where
  curves : Option (Option Curve)
  screen : Option (Option RGBAColor)
  saturation : Option ℚ
  vignette : Option ℚ
  lighten : Option ℚ
  viewfinder : Option (Option String)
  sepia : Option Bool
  brightness : Option ℚ
  contrast : Option ℚ

/-- The spread merge `{...defaultEffect, ...partialEffect}` in `applyEffect`:
each field present in the partial shape overrides the default. -/
def mergeEffect (p : EffectShape) : Effect where
  curves := p.curves.getD defaultEffect.curves
  screen := p.screen.getD defaultEffect.screen
  saturation := p.saturation.getD defaultEffect.saturation
  vignette := p.vignette.getD defaultEffect.vignette
  lighten := p.lighten.getD defaultEffect.lighten
  viewfinder := p.viewfinder.getD defaultEffect.viewfinder
  sepia := p.sepia.getD defaultEffect.sepia
  brightness := p.brightness.getD defaultEffect.brightness
  contrast := p.contrast.getD defaultEffect.contrast

/-- `compose(f, g) = x => f(g(x))`. -/
def compose (f g : ℚ → ℚ) : ℚ → ℚ := fun x => f (g x)

/-- `idFn = c => c`. -/
def idFn (c : ℚ) : ℚ := c

/-- `curvesFn = curves => c => curves[c]`.  JS array indexing by a number: for the
integer indices 0..255 this is `getD` of the numerator; the `undefined` produced
by a non-integer index (unreachable from `getLUT`, which only applies this to the
integers 0..255) is modelled as 0. -/
def curvesFn (curve : List ℚ) (c : ℚ) : ℚ :=
  if c.den = 1 then curve.getD c.num.toNat 0 else 0

/-- `contrastFn = f => c => 259 * (f * 256 + 255) / (255 * (259 - f * 256)) * (c - 128) + 128`. -/
def contrastFn (f : ℚ) (c : ℚ) : ℚ :=
  259 * (f * 256 + 255) / (255 * (259 - f * 256)) * (c - 128) + 128

/-- `brightnessFn = f => c => c + f * 256`. -/
def brightnessFn (f : ℚ) (c : ℚ) : ℚ := c + f * 256

/-- `screenFn = sa => sc => c => 255 - (255 - c) * (255 - sc * sa) / 255`. -/
def screenFn (sa : ℚ) (sc : ℚ) (c : ℚ) : ℚ := 255 - (255 - c) * (255 - sc * sa) / 255

/-- `getLUT`: builds the three per-channel transfer chains by successive
`compose` steps (curves, then contrast, then brightness, then screen, each only
when enabled; the JS truthiness guards `if (curves)` / `if (contrast)` /
`if (brightness)` / `if (screen)` become `Option` matches and `≠ 0` tests), then
maps the chains over `id_arr = [0, 1, ..., 255]`. -/
def getLUT (effect : Effect) : List (List ℚ) :=
  let mods0 : (ℚ → ℚ) × (ℚ → ℚ) × (ℚ → ℚ) := (idFn, idFn, idFn)
  let mods1 :=
    match effect.curves with
    | some cu =>
        (compose (curvesFn cu.r) mods0.1,
         compose (curvesFn cu.g) mods0.2.1,
         compose (curvesFn cu.b) mods0.2.2)
    | none => mods0
  let mods2 :=
    if effect.contrast ≠ 0 then
      (compose (contrastFn effect.contrast) mods1.1,
       compose (contrastFn effect.contrast) mods1.2.1,
       compose (contrastFn effect.contrast) mods1.2.2)
    else mods1
  let mods3 :=
    if effect.brightness ≠ 0 then
      (compose (brightnessFn effect.brightness) mods2.1,
       compose (brightnessFn effect.brightness) mods2.2.1,
       compose (brightnessFn effect.brightness) mods2.2.2)
    else mods2
  let mods4 :=
    match effect.screen with
    | some s =>
        (compose (screenFn s.a s.r) mods3.1,
         compose (screenFn s.a s.g) mods3.2.1,
         compose (screenFn s.a s.b) mods3.2.2)
    | none => mods3
  let id_arr := (List.range 256).map (fun idx => (idx : ℚ))
  [id_arr.map mods4.1, id_arr.map mods4.2.1, id_arr.map mods4.2.2]

/-- A LUT read `LUT[ch][v]` as performed in the pixel loop (`v` is a byte read
from the buffer, so the entry exists for every well-formed LUT). -/
def lutLookup (lut : List (List ℚ)) (ch : ℕ) (v : ℕ) : ℚ :=
  (lut.getD ch []).getD v 0

/-- The sepia branch of the pixel loop:
`_r = r*0.393 + g*0.769 + b*0.189; _g = r*0.349 + g*0.686 + b*0.168; _b = r*0.272 + g*0.534 + b*0.131`. -/
def sepiaStep (r g b : ℚ) : ℚ × ℚ × ℚ :=
  (r * 0.393 + g * 0.769 + b * 0.189,
   r * 0.349 + g * 0.686 + b * 0.168,
   r * 0.272 + g * 0.534 + b * 0.131)

/-- The saturation branch of the pixel loop: when `saturation < 1`,
`avg = (r+g+b)/3` and each channel moves by `(avg - c) * (1 - saturation)`;
otherwise the channels are returned unchanged. -/
def saturationStep (saturation r g b : ℚ) : ℚ × ℚ × ℚ :=
  if saturation < 1 then
    let avg := (r + g + b) / 3
    (r + (avg - r) * (1 - saturation),
     g + (avg - g) * (1 - saturation),
     b + (avg - b) * (1 - saturation))
  else (r, g, b)

/-- The body of the pixel loop on one pixel's three byte samples: LUT lookup on
each channel, then the sepia branch if `sepia`, then the saturation branch.
Returns the computed (unclamped, rational) `r`, `g`, `b` of the loop's local
variables just before they are stored back into the buffer. -/
def processPixel (sepia : Bool) (saturation : ℚ) (lut : List (List ℚ))
    (rv gv bv : ℕ) : ℚ × ℚ × ℚ :=
  let r := lutLookup lut 0 rv
  let g := lutLookup lut 1 gv
  let b := lutLookup lut 2 bv
  let t := if sepia then sepiaStep r g b else (r, g, b)
  saturationStep saturation t.1 t.2.1 t.2.2

/-- ECMAScript ToUint8Clamp: what `id[k] = x` stores into a `Uint8ClampedArray`
(clamp to [0,255], round to nearest, ties to even). -/
def clampRound (q : ℚ) : ℕ :=
  if q ≤ 0 then 0
  else if 255 ≤ q then 255
  else
    let f : ℤ := q.floor
    if q - f < 1 / 2 then f.toNat
    else if 1 / 2 < q - f then f.toNat + 1
    else if f % 2 = 0 then f.toNat else f.toNat + 1

/-- One iteration of the pixel loop at loop index `i`:
`ri = i << 2; gi = ri + 1; bi = ri + 2` (the int32 wrap of `<<` is not modelled;
real buffers are far below 2^29 pixels), three byte reads, the per-pixel
computation, three stores.  `List.getD _ _ 0` / `List.set` match typed-array
behaviour on an RGBA buffer: an out-of-bounds store is discarded (the default 0
fed by an out-of-bounds read only ever flows into such a discarded store when
the buffer length is a multiple of 4). -/
def stepPixel (sepia : Bool) (saturation : ℚ) (lut : List (List ℚ))
    (id : List ℕ) (i : ℕ) : List ℕ :=
  let t := processPixel sepia saturation lut
    (id.getD (4 * i) 0) (id.getD (4 * i + 1) 0) (id.getD (4 * i + 2) 0)
  ((id.set (4 * i) (clampRound t.1)).set (4 * i + 1) (clampRound t.2.1)).set
    (4 * i + 2) (clampRound t.2.2)

/-- The loop `for (let i = start; i >= 0; --i)` applied to the buffer:
iterations run at indices `start, start - 1, ..., 0`. -/
def runFrom (sepia : Bool) (saturation : ℚ) (lut : List (List ℚ))
    (id : List ℕ) : ℕ → List ℕ
  | 0 => stepPixel sepia saturation lut id 0
  | i + 1 => runFrom sepia saturation lut (stepPixel sepia saturation lut id (i + 1)) i

/-- The whole pixel-transform pass of `applyEffect`: the loop starts at
`i = id.length / 4` (one past the last pixel index) and counts down to 0. -/
def pixelLoop (e : Effect) (id : List ℕ) : List ℕ :=
  runFrom e.sepia e.saturation (getLUT e) id (id.length / 4)

/-- The value the pass computes for buffer position `j` of pixel `j / 4` from
the ORIGINAL buffer contents: the clamped store of the corresponding component
of `processPixel` on that pixel's original three byte samples. -/
def outSample (sepia : Bool) (saturation : ℚ) (lut : List (List ℚ))
    (id : List ℕ) (j : ℕ) : ℕ :=
  let p := j / 4
  let t := processPixel sepia saturation lut
    (id.getD (4 * p) 0) (id.getD (4 * p + 1) 0) (id.getD (4 * p + 2) 0)
  if j % 4 = 0 then clampRound t.1
  else if j % 4 = 1 then clampRound t.2.1
  else clampRound t.2.2

/-- A source element handed to `applyEffect`: an `HTMLImageElement`, an
`HTMLCanvasElement` (each carrying dimensions and RGBA byte data), or anything
else (carrying the string `typeof el` interpolated into the error message). -/
inductive SourceElement where
  | image (width height : ℕ) (pixels : List ℕ)
  | canvas (width height : ℕ) (pixels : List ℕ)
  | other (typeName : String)

/-- `getCanvasAndCtx`: an image is drawn onto a fresh canvas, a canvas is used
directly, anything else throws
`Unsupported source element. Expected HTMLCanvasElement or HTMLImageElement, got <typeof el>.`.
The drawable canvas plus 2d context pair is modelled as dimensions plus pixel
data; the `nullthrows` on context acquisition is not modelled (contexts are
assumed obtainable). -/
def getCanvasAndCtx : SourceElement → Except String (ℕ × ℕ × List ℕ)
  | .image w h px => .ok (w, h, px)
  | .canvas w h px => .ok (w, h, px)
  | .other t =>
      .error ("Unsupported source element. Expected HTMLCanvasElement or HTMLImageElement, got "
        ++ t ++ ".")

/-- The synchronous core of `applyEffect` up to the commit of the pixel pass:
merge the partial effect with the defaults, build the LUT, acquire the canvas
(a throw here rejects the promise before any pixel processing), run the pixel
loop on a snapshot of the buffer.  The later surface-compositing stages
(vignette, lighten, viewfinder) draw through the 2d context and are outside
this model. -/
def applyEffect (srcEl : SourceElement) (partialEffect : EffectShape) :
    Except String (List ℕ) :=
  let effect := mergeEffect partialEffect
  let lut := getLUT effect
  match getCanvasAndCtx srcEl with
  | .error e => .error e
  | .ok (_, _, px) => .ok (runFrom effect.sepia effect.saturation lut px (px.length / 4))

/-- Modelled from the spec's words, for the refinement claim about `getLUT`:
one channel's transfer function as the chain curves → contrast → brightness →
screen, each stage applied only when enabled, the channel picked out by the two
projections. -/
def stageChainSpec (e : Effect) (curveOf : Curve → List ℚ)
    (screenOf : RGBAColor → ℚ) (c : ℚ) : ℚ :=
  let c1 :=
    match e.curves with
    | some cu => curvesFn (curveOf cu) c
    | none => c
  let c2 := if e.contrast ≠ 0 then contrastFn e.contrast c1 else c1
  let c3 := if e.brightness ≠ 0 then brightnessFn e.brightness c2 else c2
  match e.screen with
  | some s => screenFn s.a (screenOf s) c3
  | none => c3

/-- The 2×2 fully opaque mid-gray RGBA buffer. -/
def grayImage2x2 : List ℕ :=
  [128, 128, 128, 255, 128, 128, 128, 255, 128, 128, 128, 255, 128, 128, 128, 255]

/-- The partial effect `{brightness: 0.1}`. -/
def brightnessOnlyShape : EffectShape :=
  ⟨none, none, none, none, none, none, none, some 0.1, none⟩

lemma getD_map_range {α : Type} (f : ℕ → α) (d : α) {i n : ℕ} (h : i < n) :
    ((List.range n).map f).getD i d = f i := by
  rw [List.getD_eq_getElem?_getD, List.getElem?_map, List.getElem?_range h]
  rfl

lemma map_idFn (l : List ℚ) : l.map idFn = l := List.map_id l

lemma flatMap_singleton_map {α β : Type} (l : List α) (f : α → β) :
    (l.flatMap fun a => [f a]) = l.map f := by
  induction l with
  | nil => rfl
  | cons x xs ih => simp [List.flatMap_cons, ih]

/-- C1: for every partial effect whose merged curves, screen, brightness and
contrast are the defaults (disabled, disabled, 0, 0), every channel's LUT is the
identity table on 0..255. -/
theorem lut_identity_on_default_stages (p : EffectShape)
    (hc : (mergeEffect p).curves = none) (hs : (mergeEffect p).screen = none)
    (hb : (mergeEffect p).brightness = 0) (hco : (mergeEffect p).contrast = 0)
    (ch i : ℕ) (hch : ch < 3) (hi : i < 256) :
    ((getLUT (mergeEffect p)).getD ch []).getD i 0 = i := by
  have hlut : getLUT (mergeEffect p) =
      [(List.range 256).map (fun idx : ℕ => (idx : ℚ)),
       (List.range 256).map (fun idx : ℕ => (idx : ℚ)),
       (List.range 256).map (fun idx : ℕ => (idx : ℚ))] := by
    simp [getLUT, hc, hs, hb, hco, map_idFn, flatMap_singleton_map, idFn]
  rw [hlut]
  interval_cases ch <;>
    exact getD_map_range (fun idx => (idx : ℚ)) 0 hi

theorem lut_identity_on_default_stages_witness :
    ((getLUT (mergeEffect ⟨none, none, none, none, none, none, none, none, none⟩)).getD 0 []).getD 7 0 = ((7 : ℕ) : ℚ) :=
  lut_identity_on_default_stages ⟨none, none, none, none, none, none, none, none, none⟩
    rfl rfl rfl rfl 0 7 (by decide) (by decide)

lemma getLUT_chain (e : Effect) :
    getLUT e =
      [(List.range 256).map (fun i : ℕ => stageChainSpec e Curve.r RGBAColor.r (i : ℚ)),
       (List.range 256).map (fun i : ℕ => stageChainSpec e Curve.g RGBAColor.g (i : ℚ)),
       (List.range 256).map (fun i : ℕ => stageChainSpec e Curve.b RGBAColor.b (i : ℚ))] := by
  cases hc : e.curves <;> cases hs : e.screen <;>
    by_cases hco : e.contrast = 0 <;> by_cases hb : e.brightness = 0 <;>
      simp [getLUT, stageChainSpec, hc, hs, hco, hb, compose, idFn, map_idFn,
        flatMap_singleton_map, List.map_map, Function.comp]

/-- C2: `getLUT` produces, for each of the three channels, the 256-entry table
of the stage chain curves → contrast → brightness → screen (each stage only when
enabled) evaluated at the inputs 0..255. -/
theorem getLUT_eq_stage_chain (e : Effect) :
    getLUT e =
      [(List.range 256).map (fun i : ℕ => stageChainSpec e Curve.r RGBAColor.r (i : ℚ)),
       (List.range 256).map (fun i : ℕ => stageChainSpec e Curve.g RGBAColor.g (i : ℚ)),
       (List.range 256).map (fun i : ℕ => stageChainSpec e Curve.b RGBAColor.b (i : ℚ))] :=
  getLUT_chain e

/-- C7: `contrastFn` is the formula `259*(f*256+255)/(255*(259-f*256))*(c-128)+128`,
and at `f = 0` it is the identity. -/
theorem contrastFn_formula_and_zero_id :
    (∀ f c : ℚ, contrastFn f c =
        259 * (f * 256 + 255) / (255 * (259 - f * 256)) * (c - 128) + 128) ∧
      ∀ c : ℚ, contrastFn 0 c = c := by
  refine ⟨fun f c => rfl, fun c => ?_⟩
  unfold contrastFn
  norm_num

/-- C4: with the sepia branch off, a saturation of 1 or more leaves the pixel's
channels exactly the LUT outputs, and a saturation of 0 makes all three output
channels the average of the three LUT outputs. -/
theorem saturation_one_identity_zero_average (sat : ℚ) (lut : List (List ℚ))
    (rv gv bv : ℕ) :
    (1 ≤ sat →
      processPixel false sat lut rv gv bv =
        (lutLookup lut 0 rv, lutLookup lut 1 gv, lutLookup lut 2 bv)) ∧
    (sat = 0 →
      processPixel false sat lut rv gv bv =
        ((lutLookup lut 0 rv + lutLookup lut 1 gv + lutLookup lut 2 bv) / 3,
         (lutLookup lut 0 rv + lutLookup lut 1 gv + lutLookup lut 2 bv) / 3,
         (lutLookup lut 0 rv + lutLookup lut 1 gv + lutLookup lut 2 bv) / 3)) := by
  constructor
  · intro h
    simp [processPixel, saturationStep, not_lt.mpr h]
  · rintro rfl
    simp only [processPixel, saturationStep]
    norm_num

theorem saturation_one_identity_zero_average_witness :
    (1 : ℚ) ≤ 1 ∧
      processPixel false 1 [[5], [6], [7]] 0 0 0 =
        (lutLookup [[5], [6], [7]] 0 0, lutLookup [[5], [6], [7]] 1 0,
         lutLookup [[5], [6], [7]] 2 0) :=
  ⟨le_refl 1, (saturation_one_identity_zero_average 1 [[5], [6], [7]] 0 0 0).1 (le_refl 1)⟩

/-- C5: with sepia enabled, the pixel body applies the sepia matrix to the LUT
outputs (not the original samples), and on a white LUT output (255,255,255) the
matrix gives 255 times the row sums 1.351, 1.203, 0.937. -/
theorem sepia_applies_matrix_to_lut_outputs (sat : ℚ) (lut : List (List ℚ))
    (rv gv bv : ℕ) :
    (processPixel true sat lut rv gv bv =
      (let t := sepiaStep (lutLookup lut 0 rv) (lutLookup lut 1 gv) (lutLookup lut 2 bv)
       saturationStep sat t.1 t.2.1 t.2.2)) ∧
    sepiaStep 255 255 255 = (255 * 1.351, 255 * 1.203, 255 * 0.937) := by
  refine ⟨rfl, ?_⟩
  unfold sepiaStep
  norm_num

/-- C9: for every saturation below 1, the saturation branch preserves the sum of
the three channels (so the per-pixel average is invariant). -/
theorem saturation_preserves_channel_sum (s r g b : ℚ) (h : s < 1) :
    (saturationStep s r g b).1 + (saturationStep s r g b).2.1 +
        (saturationStep s r g b).2.2 =
      r + g + b := by
  simp [saturationStep, h]
  ring

theorem saturation_preserves_channel_sum_witness :
    (0 : ℚ) < 1 ∧
      (saturationStep 0 1 2 3).1 + (saturationStep 0 1 2 3).2.1 +
          (saturationStep 0 1 2 3).2.2 =
        1 + 2 + 3 :=
  ⟨by norm_num, saturation_preserves_channel_sum 0 1 2 3 (by norm_num)⟩

/-- C8: a source that is neither an image nor a canvas makes `applyEffect` fail
immediately with the unsupported-source error, before any pixel processing. -/
theorem unsupported_source_rejects (t : String) (p : EffectShape) :
    applyEffect (SourceElement.other t) p =
      .error ("Unsupported source element. Expected HTMLCanvasElement or HTMLImageElement, got "
        ++ t ++ ".") := rfl

lemma getD_set_ne {l : List ℕ} {i j : ℕ} (a : ℕ) (h : i ≠ j) :
    (l.set i a).getD j 0 = l.getD j 0 := by
  rw [List.getD_eq_getElem?_getD, List.getD_eq_getElem?_getD, List.getElem?_set_ne h]

lemma getD_set_self {l : List ℕ} {i : ℕ} (a : ℕ) (h : i < l.length) :
    (l.set i a).getD i 0 = a := by
  rw [List.getD_eq_getElem?_getD, List.getElem?_set_self h]
  rfl

lemma stepPixel_length (sepia : Bool) (sat : ℚ) (lut : List (List ℚ))
    (id : List ℕ) (i : ℕ) : (stepPixel sepia sat lut id i).length = id.length := by
  simp [stepPixel]

/-- An iteration touches nothing outside its own pixel's three color samples. -/
lemma stepPixel_getD_ne (sepia : Bool) (sat : ℚ) (lut : List (List ℚ))
    (id : List ℕ) {i j : ℕ} (h : ¬(j / 4 = i ∧ j % 4 < 3)) :
    (stepPixel sepia sat lut id i).getD j 0 = id.getD j 0 := by
  simp only [stepPixel]
  rw [getD_set_ne _ (by omega), getD_set_ne _ (by omega), getD_set_ne _ (by omega)]

/-- An iteration writes, at each of its own pixel's three color samples, the
clamped store of the per-pixel computation on that pixel's original samples. -/
lemma stepPixel_getD_eq (sepia : Bool) (sat : ℚ) (lut : List (List ℚ))
    (id : List ℕ) {i j : ℕ} (hj : j < id.length) (h1 : j / 4 = i) (h2 : j % 4 < 3) :
    (stepPixel sepia sat lut id i).getD j 0 = outSample sepia sat lut id j := by
  have hcase : j % 4 = 0 ∨ j % 4 = 1 ∨ j % 4 = 2 := by omega
  simp only [stepPixel, outSample]
  rcases hcase with h4 | h4 | h4
  · have hji : j = 4 * i := by omega
    have k2 : (4 * i + 2 : ℕ) ≠ j := by omega
    have k1 : (4 * i + 1 : ℕ) ≠ j := by omega
    rw [getD_set_ne _ k2, getD_set_ne _ k1, hji,
      getD_set_self _ (show 4 * i < id.length by omega)]
    have e2 : 4 * (4 * i / 4) = 4 * i := by omega
    have e1 : 4 * i % 4 = 0 := by omega
    rw [e2, e1]
    simp
  · have hji : j = 4 * i + 1 := by omega
    have k2 : (4 * i + 2 : ℕ) ≠ j := by omega
    rw [getD_set_ne _ k2, hji,
      getD_set_self _ (by simp only [List.length_set]; omega)]
    have e2 : 4 * ((4 * i + 1) / 4) = 4 * i := by omega
    have e1 : (4 * i + 1) % 4 = 1 := by omega
    rw [e2, e1]
    simp
  · have hji : j = 4 * i + 2 := by omega
    rw [hji, getD_set_self _ (by simp only [List.length_set]; omega)]
    have e2 : 4 * ((4 * i + 2) / 4) = 4 * i := by omega
    have e1 : (4 * i + 2) % 4 = 2 := by omega
    rw [e2, e1]
    simp

/-- The computed output for a sample of pixel `p` only reads pixel `p`, so an
iteration on a different pixel does not change it. -/
lemma outSample_stepPixel_ne (sepia : Bool) (sat : ℚ) (lut : List (List ℚ))
    (id : List ℕ) {i j : ℕ} (h : j / 4 ≠ i) :
    outSample sepia sat lut (stepPixel sepia sat lut id i) j =
      outSample sepia sat lut id j := by
  simp only [outSample]
  rw [stepPixel_getD_ne _ _ _ _ (by omega), stepPixel_getD_ne _ _ _ _ (by omega),
    stepPixel_getD_ne _ _ _ _ (by omega)]

/-- Main loop invariant: running the loop from start index `i` down to 0 maps
every color sample of the pixels 0..i to the per-pixel output computed from the
ORIGINAL buffer, and leaves every other in-bounds sample unchanged. -/
lemma runFrom_getD (sepia : Bool) (sat : ℚ) (lut : List (List ℚ)) :
    ∀ (i : ℕ) (id : List ℕ) (j : ℕ), j < id.length →
      (runFrom sepia sat lut id i).getD j 0 =
        if j / 4 ≤ i ∧ j % 4 < 3 then outSample sepia sat lut id j
        else id.getD j 0 := by
  intro i
  induction i with
  | zero =>
    intro id j hj
    by_cases hc : j / 4 = 0 ∧ j % 4 < 3
    · rw [show runFrom sepia sat lut id 0 = stepPixel sepia sat lut id 0 from rfl,
        stepPixel_getD_eq _ _ _ _ hj hc.1 hc.2, if_pos ⟨by omega, hc.2⟩]
    · rw [show runFrom sepia sat lut id 0 = stepPixel sepia sat lut id 0 from rfl,
        stepPixel_getD_ne _ _ _ _ hc, if_neg (by omega)]
  | succ i ih =>
    intro id j hj
    rw [show runFrom sepia sat lut id (i + 1) =
        runFrom sepia sat lut (stepPixel sepia sat lut id (i + 1)) i from rfl]
    have hlen : j < (stepPixel sepia sat lut id (i + 1)).length := by
      rw [stepPixel_length]; exact hj
    rw [ih (stepPixel sepia sat lut id (i + 1)) j hlen]
    by_cases hc1 : j / 4 ≤ i ∧ j % 4 < 3
    · rw [if_pos hc1, if_pos ⟨by omega, hc1.2⟩,
        outSample_stepPixel_ne _ _ _ _ (by omega)]
    · rw [if_neg hc1]
      by_cases hc2 : j / 4 = i + 1 ∧ j % 4 < 3
      · rw [stepPixel_getD_eq _ _ _ _ hj hc2.1 hc2.2, if_pos ⟨by omega, hc2.2⟩]
      · rw [stepPixel_getD_ne _ _ _ _ hc2, if_neg (by omega)]

lemma set3_oob (l : List ℕ) (k a b c : ℕ) (h : l.length ≤ k) :
    ((l.set k a).set (k + 1) b).set (k + 2) c = l := by
  have h1 : l.set k a = l := @List.set_eq_of_length_le ℕ l k h a
  rw [h1]
  have h2 : l.set (k + 1) b = l := @List.set_eq_of_length_le ℕ l (k + 1) (by omega) b
  rw [h2]
  exact @List.set_eq_of_length_le ℕ l (k + 2) (by omega) c

/-- C6: for every effect and every in-bounds alpha sample (buffer position
`j` with `j % 4 = 3`), the pixel pass leaves the sample at its original value:
only the R, G and B samples are written. -/
theorem alpha_untouched (e : Effect) (id : List ℕ) (j : ℕ)
    (hj : j < id.length) (ha : j % 4 = 3) :
    (pixelLoop e id).getD j 0 = id.getD j 0 := by
  unfold pixelLoop
  rw [runFrom_getD _ _ _ _ _ _ hj, if_neg (by omega)]

theorem alpha_untouched_witness :
    3 < ([10, 20, 30, 40] : List ℕ).length ∧ 3 % 4 = 3 ∧
      (pixelLoop defaultEffect [10, 20, 30, 40]).getD 3 0 =
        ([10, 20, 30, 40] : List ℕ).getD 3 0 :=
  ⟨by decide, by decide,
    alpha_untouched defaultEffect [10, 20, 30, 40] 3 (by decide) (by decide)⟩

/-- C10: on an RGBA buffer of `n` pixels the loop starts at index
`n = id.length / 4`, one past the last pixel; that first iteration addresses
only positions at and beyond the buffer length and is a no-op, and every
in-bounds sample's final value is exactly the per-pixel output computed from
that pixel's original samples (color samples), or its original value (alpha). -/
theorem loop_overshoot_harmless (e : Effect) (id : List ℕ) (n : ℕ)
    (h : id.length = 4 * n) :
    stepPixel e.sepia e.saturation (getLUT e) id n = id ∧
    ∀ j < id.length,
      (pixelLoop e id).getD j 0 =
        if j % 4 < 3 then outSample e.sepia e.saturation (getLUT e) id j
        else id.getD j 0 := by
  constructor
  · simp only [stepPixel]
    exact set3_oob _ _ _ _ _ (by omega)
  · intro j hj
    unfold pixelLoop
    rw [runFrom_getD _ _ _ _ _ _ hj]
    by_cases hm : j % 4 < 3
    · rw [if_pos ⟨by omega, hm⟩, if_pos hm]
    · rw [if_neg (by omega), if_neg hm]

theorem loop_overshoot_harmless_witness :
    ([9, 9, 9, 9] : List ℕ).length = 4 * 1 ∧
      (stepPixel defaultEffect.sepia defaultEffect.saturation (getLUT defaultEffect)
          [9, 9, 9, 9] 1 = [9, 9, 9, 9] ∧
        ∀ j < ([9, 9, 9, 9] : List ℕ).length,
          (pixelLoop defaultEffect [9, 9, 9, 9]).getD j 0 =
            if j % 4 < 3 then
              outSample defaultEffect.sepia defaultEffect.saturation
                (getLUT defaultEffect) [9, 9, 9, 9] j
            else ([9, 9, 9, 9] : List ℕ).getD j 0) :=
  ⟨by decide, loop_overshoot_harmless defaultEffect [9, 9, 9, 9] 1 (by decide)⟩

/-- C3: on the 2×2 opaque mid-gray image with the default effect except
`brightness = 0.1`, every pixel's computed (unclamped) R, G, B all equal
`128 + 0.1 * 256 = 153.6`, and every pixel's alpha sample is unchanged at 255. -/
theorem brightness_end_to_end_gray :
    (∀ p : Fin 4,
      processPixel (mergeEffect brightnessOnlyShape).sepia
        (mergeEffect brightnessOnlyShape).saturation
        (getLUT (mergeEffect brightnessOnlyShape))
        (grayImage2x2.getD (4 * p.val) 0) (grayImage2x2.getD (4 * p.val + 1) 0)
        (grayImage2x2.getD (4 * p.val + 2) 0) = (153.6, 153.6, 153.6)) ∧
    (∀ p : Fin 4,
      (pixelLoop (mergeEffect brightnessOnlyShape) grayImage2x2).getD (4 * p.val + 3) 0 =
        grayImage2x2.getD (4 * p.val + 3) 0 ∧
      grayImage2x2.getD (4 * p.val + 3) 0 = 255) := by
  have hlk : ∀ ch : ℕ, ch < 3 →
      lutLookup (getLUT (mergeEffect brightnessOnlyShape)) ch 128 = 153.6 := by
    intro ch hch
    unfold lutLookup
    rw [getLUT_chain]
    interval_cases ch
    · show ((List.range 256).map (fun i : ℕ =>
        stageChainSpec (mergeEffect brightnessOnlyShape) Curve.r RGBAColor.r (i : ℚ))).getD 128 0 = 153.6
      rw [getD_map_range _ 0 (show (128 : ℕ) < 256 by omega)]
      norm_num [stageChainSpec, mergeEffect, brightnessOnlyShape, defaultEffect, brightnessFn]
    · show ((List.range 256).map (fun i : ℕ =>
        stageChainSpec (mergeEffect brightnessOnlyShape) Curve.g RGBAColor.g (i : ℚ))).getD 128 0 = 153.6
      rw [getD_map_range _ 0 (show (128 : ℕ) < 256 by omega)]
      norm_num [stageChainSpec, mergeEffect, brightnessOnlyShape, defaultEffect, brightnessFn]
    · show ((List.range 256).map (fun i : ℕ =>
        stageChainSpec (mergeEffect brightnessOnlyShape) Curve.b RGBAColor.b (i : ℚ))).getD 128 0 = 153.6
      rw [getD_map_range _ 0 (show (128 : ℕ) < 256 by omega)]
      norm_num [stageChainSpec, mergeEffect, brightnessOnlyShape, defaultEffect, brightnessFn]
  constructor
  · intro p
    fin_cases p <;>
    · show processPixel false 1 (getLUT (mergeEffect brightnessOnlyShape)) 128 128 128 =
        (153.6, 153.6, 153.6)
      simp only [processPixel, saturationStep, lt_self_iff_false, if_false, Bool.false_eq_true]
      rw [hlk 0 (by omega), hlk 1 (by omega), hlk 2 (by omega)]
  · intro p
    refine ⟨?_, ?_⟩
    · have hj : 4 * p.val + 3 < grayImage2x2.length := by
        have := p.isLt
        simp only [grayImage2x2, List.length_cons, List.length_nil]
        omega
      unfold pixelLoop
      rw [runFrom_getD _ _ _ _ _ _ hj, if_neg (by omega)]
    · fin_cases p <;> rfl
